import Mathlib

/-!
Formal model of the plan-to-cost estimation engine in
`scripts/aws-cost-estimate.py` (class `AWSCostEstimator`).

The estimator parses a Terraform plan (its `resource_changes` list),
classifies each change by its `type` tag, resolves hourly prices (`Decimal`
values, or `None` when the pricing catalog has no usable match), and
aggregates a monthly cost (`hourly × 730`) with a line-item breakdown.

Python `Decimal` values are modelled exactly as a coefficient together with a
power-of-ten exponent; all arithmetic appearing in the script is exact (well
inside the default 28-digit context precision), so coefficient arithmetic
models it faithfully.  The pricing catalog (`boto3` pricing client wrapped by
`get_ec2_price` / `get_rds_price`) is modelled as a pair of functions
returning `Option Dec`: `none` stands for every failure path of those
methods (query error, empty `PriceList`, malformed price structure), which
all return Python `None`.
-/

namespace AwsCost

/-- Model of a Python `Decimal` value `man × 10 ^ exp`.  Python's `Decimal`
stores a sign, a coefficient digit tuple and an exponent; `man` carries the
signed coefficient. -/
structure Dec where
  man : Int
  exp : Int
deriving DecidableEq, Repr

/-- `Decimal('0')`, the initial value of every accumulator in the script. -/
def Dec.zero : Dec := ⟨0, 0⟩

/-- A Python `int` literal (such as `730` or a resource count) coerced into
the `Decimal` arithmetic, as `Decimal.__mul__` does with an int operand. -/
def Dec.ofNat (n : Nat) : Dec := ⟨(n : Int), 0⟩

/-- `Decimal.__add__`: align both coefficients to the smaller exponent and
add them (exact at these magnitudes, no context rounding occurs). -/
def Dec.add (a b : Dec) : Dec :=
  let e := min a.exp b.exp
  ⟨a.man * 10 ^ (a.exp - e).toNat + b.man * 10 ^ (b.exp - e).toNat, e⟩

/-- `Decimal.__mul__` (exact at these magnitudes). -/
def Dec.mul (a b : Dec) : Dec := ⟨a.man * b.man, a.exp + b.exp⟩

/-- The rational value of a `Decimal`. -/
def Dec.toRat (a : Dec) : ℚ :=
  (a.man : ℚ) * (10 : ℚ) ^ a.exp.toNat / (10 : ℚ) ^ (-a.exp).toNat

theorem Dec.toRat_eq_zpow (a : Dec) : a.toRat = (a.man : ℚ) * (10 : ℚ) ^ a.exp := by
  unfold Dec.toRat
  rcases le_or_lt 0 a.exp with h | h
  · rw [show (-a.exp).toNat = 0 from by omega]
    rw [pow_zero, div_one, ← zpow_natCast (10 : ℚ) a.exp.toNat, Int.toNat_of_nonneg h]
  · rw [show a.exp.toNat = 0 from by omega]
    rw [pow_zero, mul_one, ← zpow_natCast (10 : ℚ) (-a.exp).toNat,
        Int.toNat_of_nonneg (by omega : (0:ℤ) ≤ -a.exp)]
    rw [div_eq_mul_inv, ← zpow_neg, neg_neg]

theorem Dec.toRat_zero : Dec.zero.toRat = 0 := by
  simp [Dec.toRat_eq_zpow, Dec.zero]

theorem Dec.toRat_ofNat (n : Nat) : (Dec.ofNat n).toRat = (n : ℚ) := by
  simp [Dec.toRat_eq_zpow, Dec.ofNat]

theorem Dec.toRat_add (a b : Dec) : (a.add b).toRat = a.toRat + b.toRat := by
  rw [Dec.toRat_eq_zpow, Dec.toRat_eq_zpow, Dec.toRat_eq_zpow]
  unfold Dec.add
  have h10 : (10:ℚ) ≠ 0 := by norm_num
  have ha : (0:ℤ) ≤ a.exp - min a.exp b.exp := by omega
  have hb : (0:ℤ) ≤ b.exp - min a.exp b.exp := by omega
  push_cast
  rw [← zpow_natCast (10:ℚ) (a.exp - min a.exp b.exp).toNat,
      ← zpow_natCast (10:ℚ) (b.exp - min a.exp b.exp).toNat,
      Int.toNat_of_nonneg ha, Int.toNat_of_nonneg hb]
  rw [add_mul, mul_assoc, mul_assoc, ← zpow_add₀ h10, ← zpow_add₀ h10]
  rw [sub_add_cancel, sub_add_cancel]

theorem Dec.toRat_mul (a b : Dec) : (a.mul b).toRat = a.toRat * b.toRat := by
  rw [Dec.toRat_eq_zpow, Dec.toRat_eq_zpow, Dec.toRat_eq_zpow]
  unfold Dec.mul
  push_cast
  rw [zpow_add₀ (by norm_num : (10:ℚ) ≠ 0)]
  ring

theorem Dec.toRat_pos (a : Dec) : 0 < a.toRat ↔ 0 < a.man := by
  rw [Dec.toRat_eq_zpow]
  have hp : (0:ℚ) < (10 : ℚ) ^ a.exp := by positivity
  constructor
  · intro h
    by_contra hm
    push_neg at hm
    have : (a.man : ℚ) ≤ 0 := by exact_mod_cast hm
    nlinarith
  · intro h
    have : (0:ℚ) < (a.man : ℚ) := by exact_mod_cast h
    positivity

theorem Dec.toRat_nonneg (a : Dec) : 0 ≤ a.toRat ↔ 0 ≤ a.man := by
  rw [Dec.toRat_eq_zpow]
  have hp : (0:ℚ) < (10 : ℚ) ^ a.exp := by positivity
  constructor
  · intro h
    by_contra hm
    push_neg at hm
    have : (a.man : ℚ) < 0 := by exact_mod_cast hm
    nlinarith
  · intro h
    have : (0:ℚ) ≤ (a.man : ℚ) := by exact_mod_cast h
    positivity

theorem Dec.toRat_eq_zero_of_man_eq_zero {a : Dec} (h : a.man = 0) : a.toRat = 0 := by
  rw [Dec.toRat_eq_zpow, h]
  simp

/-- `str(Decimal)` (Python `Decimal.__str__`, finite non-special case): render
the coefficient digits with the decimal point placed by the exponent, falling
back to scientific form when the exponent is positive or the value is tiny. -/
def Dec.str (a : Dec) : String :=
  let sign := if a.man < 0 then "-" else ""
  let digits := toString a.man.natAbs
  let n : Int := (digits.length : Int)
  let leftdigits := a.exp + n
  if a.exp ≤ 0 ∧ -6 < leftdigits then
    if leftdigits ≤ 0 then
      sign ++ "0." ++ String.mk (List.replicate (-leftdigits).toNat '0') ++ digits
    else if leftdigits < n then
      sign ++ digits.take leftdigits.toNat ++ "." ++ digits.drop leftdigits.toNat
    else
      sign ++ digits ++ String.mk (List.replicate (leftdigits - n).toNat '0')
  else
    let mantis := if n = 1 then digits else digits.take 1 ++ "." ++ digits.drop 1
    let expval : Int := leftdigits - 1
    sign ++ mantis ++ "E" ++ (if 0 ≤ expval then "+" ++ toString expval else toString expval)

/-- Round-half-even division of `m` by `10 ^ k` (Python `ROUND_HALF_EVEN`,
the rounding mode of the default context used by `Decimal.__format__`). -/
def roundHalfEven (m : Int) (k : Nat) : Int :=
  let d : Nat := 10 ^ k
  let n := m.natAbs
  let q := n / d
  let r := n % d
  let q2 := if 2 * r < d then q
            else if d < 2 * r then q + 1
            else if q % 2 = 0 then q else q + 1
  if 0 ≤ m then (q2 : Int) else -(q2 : Int)

/-- Python `f"{d:.2f}"` on a `Decimal`: quantize to two fractional digits
with ROUND_HALF_EVEN, then render in fixed-point with two decimals. -/
def Dec.fmt2 (a : Dec) : String :=
  let m2 : Int :=
    if a.exp ≤ -2 then roundHalfEven a.man (-2 - a.exp).toNat
    else a.man * 10 ^ (a.exp + 2).toNat
  let sign := if m2 < 0 then "-" else ""
  let n := m2.natAbs
  sign ++ toString (n / 100) ++ "." ++ (if n % 100 < 10 then "0" else "") ++ toString (n % 100)

/-! ## The plan data model

A Terraform plan entry, as the script reads it: only the `type` tag, the
`change.actions` list and the `change.after` attribute map are consulted.
`Option` models a missing JSON key (Python `dict.get` defaults); the `after`
object is modelled as an association list of its string attributes. -/

/-- The `change` object of one `resource_changes` entry. -/
structure ChangeBlock where
  actions : Option (List String)
  after : Option (List (String × String))
deriving DecidableEq, Repr

/-- One entry of the plan's `resource_changes` list. -/
structure RC where
  type : Option String
  change : Option ChangeBlock
deriving DecidableEq, Repr

/-- `change.get('change', {}).get('actions', [])`. -/
def RC.changeActions (c : RC) : List String :=
  (c.change.bind ChangeBlock.actions).getD []

/-- `change.get('change', {}).get('after', {})`. -/
def RC.changeAfter (c : RC) : List (String × String) :=
  (c.change.bind ChangeBlock.after).getD []

/-- The `resources` inventory dict built by `parse_terraform_plan`. -/
structure Resources where
  ec2_instances : List String
  rds_instances : List String
  albs : Nat
  nat_gateways : Nat
deriving DecidableEq, Repr

/-- The initial inventory (lines 95-100 of the script). -/
def Resources.init : Resources := ⟨[], [], 0, 0⟩

/-- The body of the `for change in plan.get('resource_changes', [])` loop
(lines 103-132): skip pure deletions, then classify by the `type` tag.
`if instance_type:` is Python truthiness, so an absent or empty string
attribute drops the entry. -/
def stepChange (res : Resources) (c : RC) : Resources :=
  if c.changeActions = ["delete"] then res
  else
    let after := c.changeAfter
    if c.type = some "aws_instance" then
      match after.lookup "instance_type" with
      | some t => if t ≠ "" then {res with ec2_instances := res.ec2_instances ++ [t]} else res
      | none => res
    else if c.type = some "aws_launch_template" then
      match after.lookup "instance_type" with
      | some t => if t ≠ "" then {res with ec2_instances := res.ec2_instances ++ [t]} else res
      | none => res
    else if c.type = some "aws_db_instance" then
      match after.lookup "instance_class" with
      | some t => if t ≠ "" then {res with rds_instances := res.rds_instances ++ [t]} else res
      | none => res
    else if c.type = some "aws_lb" ∨ c.type = some "aws_alb" then
      {res with albs := res.albs + 1}
    else if c.type = some "aws_nat_gateway" then
      {res with nat_gateways := res.nat_gateways + 1}
    else res

/-- The classification part alone (lines 111-132), without the
destroy-only skip.  Declared separately so the skip condition can be
related to it. -/
def classifyChange (res : Resources) (c : RC) : Resources :=
  let after := c.changeAfter
  if c.type = some "aws_instance" then
    match after.lookup "instance_type" with
    | some t => if t ≠ "" then {res with ec2_instances := res.ec2_instances ++ [t]} else res
    | none => res
  else if c.type = some "aws_launch_template" then
    match after.lookup "instance_type" with
    | some t => if t ≠ "" then {res with ec2_instances := res.ec2_instances ++ [t]} else res
    | none => res
  else if c.type = some "aws_db_instance" then
    match after.lookup "instance_class" with
    | some t => if t ≠ "" then {res with rds_instances := res.rds_instances ++ [t]} else res
    | none => res
  else if c.type = some "aws_lb" ∨ c.type = some "aws_alb" then
    {res with albs := res.albs + 1}
  else if c.type = some "aws_nat_gateway" then
    {res with nat_gateways := res.nat_gateways + 1}
  else res

/-- `parse_terraform_plan` restricted to its pure core: the plan document has
already been deserialized, so the plan is the `resource_changes` list. -/
def parse_terraform_plan (plan : List RC) : Resources :=
  plan.foldl stepChange Resources.init

/-! ## The pricing catalog and the estimator -/

/-- The pricing catalog as the estimator observes it: `get_ec2_price` and
`get_rds_price` each return a resolved hourly `Decimal` price or Python
`None` (`none` here) on any failure: query error, empty `PriceList`, or a
malformed price structure (every such path is caught and returns `None`,
after printing a warning to stderr; the run never aborts there). -/
structure Catalog where
  ec2 : String → Option Dec
  rds : String → Option Dec

/-- `get_alb_price`: `Decimal('0.0225')`. -/
def get_alb_price : Dec := ⟨225, -4⟩

/-- `get_nat_gateway_price`: `Decimal('0.045')`. -/
def get_nat_gateway_price : Dec := ⟨45, -3⟩

/-- Per-item breakdown line `f"EC2 {instance_type}: ${price}/hour"`. -/
def ec2Line (t : String) (price : Dec) : String :=
  "EC2 " ++ t ++ ": $" ++ price.str ++ "/hour"

/-- Per-item breakdown line `f"RDS {instance_class}: ${price}/hour"`. -/
def rdsLine (t : String) (price : Dec) : String :=
  "RDS " ++ t ++ ": $" ++ price.str ++ "/hour"

/-- `f"**EC2 Total**: ${ec2_monthly:.2f}/month"`. -/
def ec2TotalLine (m : Dec) : String := "**EC2 Total**: $" ++ m.fmt2 ++ "/month"

/-- `f"**RDS Total**: ${rds_monthly:.2f}/month"`. -/
def rdsTotalLine (m : Dec) : String := "**RDS Total**: $" ++ m.fmt2 ++ "/month"

/-- `f"ALB ({n}x): ${alb_monthly:.2f}/month (excluding LCU)"`. -/
def albLine (n : Nat) (m : Dec) : String :=
  "ALB (" ++ toString n ++ "x): $" ++ m.fmt2 ++ "/month (excluding LCU)"

/-- `f"NAT Gateway ({n}x): ${nat_monthly:.2f}/month (excluding data transfer)"`. -/
def natLine (n : Nat) (m : Dec) : String :=
  "NAT Gateway (" ++ toString n ++ "x): $" ++ m.fmt2 ++ "/month (excluding data transfer)"

/-- One iteration of the per-item pricing loops in `estimate_cost`
(lines 145-149 and 158-162): look the identifier up, and when the price is
truthy (`if price:` - so a present price of exactly zero is skipped like a
missing one) add it to the hourly sum and append a per-item line. -/
def itemStep (price? : String → Option Dec) (mkLine : String → Dec → String)
    (acc : Dec × List String) (t : String) : Dec × List String :=
  match price? t with
  | some price => if price.man ≠ 0 then (acc.1.add price, acc.2 ++ [mkLine t price]) else acc
  | none => acc

/-- The result dict of `estimate_cost`.  `monthly_cost` keeps the exact
`Decimal` value; the script converts it with `float(...)` only when building
the output dict, which does not affect any of the properties below. -/
structure EstimateResult where
  monthly_cost : Dec
  breakdown : List String
  resources : Resources
deriving DecidableEq, Repr

/-- The aggregation part of `estimate_cost` (lines 140-187) applied to an
already-built inventory and the two per-item loop results: add the EC2 and
RDS group subtotals when their hourly sums are positive (`Decimal`
comparison `> 0` is comparison of the value, hence of the coefficient sign),
then the flat-rate ALB and NAT Gateway lines when their counts are
positive. -/
def aggregate (res : Resources) (e r : Dec × List String) : EstimateResult :=
  let st1 : Dec × List String :=
    if 0 < e.1.man then
      (Dec.zero.add (e.1.mul (Dec.ofNat 730)), e.2 ++ [ec2TotalLine (e.1.mul (Dec.ofNat 730))])
    else (Dec.zero, e.2)
  let st2 : Dec × List String :=
    if 0 < r.1.man then
      (st1.1.add (r.1.mul (Dec.ofNat 730)), st1.2 ++ r.2 ++ [rdsTotalLine (r.1.mul (Dec.ofNat 730))])
    else (st1.1, st1.2 ++ r.2)
  let st3 : Dec × List String :=
    if 0 < res.albs then
      (st2.1.add ((get_alb_price.mul (Dec.ofNat 730)).mul (Dec.ofNat res.albs)),
       st2.2 ++ [albLine res.albs ((get_alb_price.mul (Dec.ofNat 730)).mul (Dec.ofNat res.albs))])
    else st2
  let st4 : Dec × List String :=
    if 0 < res.nat_gateways then
      (st3.1.add ((get_nat_gateway_price.mul (Dec.ofNat 730)).mul (Dec.ofNat res.nat_gateways)),
       st3.2 ++ [natLine res.nat_gateways ((get_nat_gateway_price.mul (Dec.ofNat 730)).mul (Dec.ofNat res.nat_gateways))])
    else st3
  ⟨st4.1, st4.2, res⟩

/-- The EC2 pricing loop (lines 144-149). -/
def ec2Fold (cat : Catalog) (l : List String) : Dec × List String :=
  l.foldl (itemStep cat.ec2 ec2Line) (Dec.zero, [])

/-- The RDS pricing loop (lines 157-162). -/
def rdsFold (cat : Catalog) (l : List String) : Dec × List String :=
  l.foldl (itemStep cat.rds rdsLine) (Dec.zero, [])

/-- `estimate_cost` on a deserialized plan: parse the inventory, run the two
per-item pricing loops, aggregate. -/
def estimate_cost (cat : Catalog) (plan : List RC) : EstimateResult :=
  let resources := parse_terraform_plan plan
  aggregate resources (ec2Fold cat resources.ec2_instances) (rdsFold cat resources.rds_instances)

/-! ## Value-level lemmas -/

/-- The hourly contribution of one identifier: its resolved price when
present and truthy, otherwise `0`. -/
def itemRat (price? : String → Option Dec) (t : String) : ℚ :=
  match price? t with
  | some p => if p.man ≠ 0 then p.toRat else 0
  | none => 0

/-- The hourly sum a pricing loop accumulates over a list of identifiers. -/
def hourlySum (price? : String → Option Dec) (l : List String) : ℚ :=
  (l.map (itemRat price?)).sum

theorem itemStep_fst_toRat (price? : String → Option Dec) (mkLine : String → Dec → String)
    (acc : Dec × List String) (t : String) :
    (itemStep price? mkLine acc t).1.toRat = acc.1.toRat + itemRat price? t := by
  unfold itemStep itemRat
  cases h : price? t with
  | none => simp
  | some p =>
    by_cases hm : p.man = 0 <;> simp [hm, Dec.toRat_add]

theorem foldl_itemStep_fst_toRat (price? : String → Option Dec) (mkLine : String → Dec → String)
    (l : List String) : ∀ acc : Dec × List String,
    (l.foldl (itemStep price? mkLine) acc).1.toRat = acc.1.toRat + hourlySum price? l := by
  induction l with
  | nil => intro acc; simp [hourlySum]
  | cons t l ih =>
    intro acc
    rw [List.foldl_cons, ih, itemStep_fst_toRat]
    simp [hourlySum]
    ring

theorem foldl_itemStep_pos_iff (price? : String → Option Dec) (mkLine : String → Dec → String)
    (l : List String) :
    0 < (l.foldl (itemStep price? mkLine) (Dec.zero, [])).1.man ↔ 0 < hourlySum price? l := by
  rw [← Dec.toRat_pos, foldl_itemStep_fst_toRat, Dec.toRat_zero, zero_add]

/-- The monthly contribution of the EC2 or RDS group with hourly sum `q`:
added only when the sum is positive. -/
def groupMonthly (q : ℚ) : ℚ := if 0 < q then q * 730 else 0

/-- The monthly contribution of a flat-rate group (`ALB` / `NAT Gateway`)
with unit price `p` and count `n`. -/
def flatMonthly (p : ℚ) (n : Nat) : ℚ := if 0 < n then p * 730 * (n : ℚ) else 0

theorem aggregate_monthly_toRat (res : Resources) (e r : Dec × List String) :
    (aggregate res e r).monthly_cost.toRat =
      (if 0 < e.1.man then e.1.toRat * 730 else 0)
      + (if 0 < r.1.man then r.1.toRat * 730 else 0)
      + flatMonthly get_alb_price.toRat res.albs
      + flatMonthly get_nat_gateway_price.toRat res.nat_gateways := by
  unfold aggregate flatMonthly
  split_ifs <;>
    simp [Dec.toRat_add, Dec.toRat_mul, Dec.toRat_zero, Dec.toRat_ofNat]

theorem fold_groupMonthly (price? : String → Option Dec) (mkLine : String → Dec → String)
    (l : List String) :
    (if 0 < (l.foldl (itemStep price? mkLine) (Dec.zero, [])).1.man
     then (l.foldl (itemStep price? mkLine) (Dec.zero, [])).1.toRat * 730 else 0)
    = groupMonthly (hourlySum price? l) := by
  unfold groupMonthly
  by_cases h : 0 < hourlySum price? l
  · rw [if_pos ((foldl_itemStep_pos_iff price? mkLine l).mpr h), if_pos h,
        foldl_itemStep_fst_toRat, Dec.toRat_zero, zero_add]
  · rw [if_neg (fun hc => h ((foldl_itemStep_pos_iff price? mkLine l).mp hc)), if_neg h]

/-- The exact monthly cost computed by `estimate_cost`, as a function of the
parsed inventory and of the hourly sums the two pricing loops accumulate. -/
theorem estimate_monthly (cat : Catalog) (plan : List RC) :
    (estimate_cost cat plan).monthly_cost.toRat =
      groupMonthly (hourlySum cat.ec2 (parse_terraform_plan plan).ec2_instances)
      + groupMonthly (hourlySum cat.rds (parse_terraform_plan plan).rds_instances)
      + flatMonthly get_alb_price.toRat (parse_terraform_plan plan).albs
      + flatMonthly get_nat_gateway_price.toRat (parse_terraform_plan plan).nat_gateways := by
  show (aggregate _ (ec2Fold cat _) (rdsFold cat _)).monthly_cost.toRat = _
  rw [aggregate_monthly_toRat]
  unfold ec2Fold rdsFold
  rw [fold_groupMonthly, fold_groupMonthly]

theorem parse_append (plan : List RC) (c : RC) :
    parse_terraform_plan (plan ++ [c]) = stepChange (parse_terraform_plan plan) c := by
  unfold parse_terraform_plan
  rw [List.foldl_append, List.foldl_cons, List.foldl_nil]

theorem estimate_cost_def (cat : Catalog) (plan : List RC) :
    estimate_cost cat plan =
      aggregate (parse_terraform_plan plan)
        (ec2Fold cat (parse_terraform_plan plan).ec2_instances)
        (rdsFold cat (parse_terraform_plan plan).rds_instances) := rfl

theorem foldl_stepChange_all_delete (plan : List RC) :
    ∀ res : Resources, (∀ c ∈ plan, c.changeActions = ["delete"]) →
    plan.foldl stepChange res = res := by
  induction plan with
  | nil => intro res _; rfl
  | cons c l ih =>
    intro res h
    rw [List.foldl_cons]
    rw [show stepChange res c = res from by simp [stepChange, h c (List.mem_cons_self c l)]]
    exact ih res (fun x hx => h x (List.mem_cons_of_mem c hx))

/-- Each loop iteration either leaves the inventory unchanged or performs
exactly one of the four possible updates. -/
theorem stepChange_shape (res : Resources) (c : RC) :
    stepChange res c = res
    ∨ (∃ t, stepChange res c = {res with ec2_instances := res.ec2_instances ++ [t]})
    ∨ (∃ t, stepChange res c = {res with rds_instances := res.rds_instances ++ [t]})
    ∨ stepChange res c = {res with albs := res.albs + 1}
    ∨ stepChange res c = {res with nat_gateways := res.nat_gateways + 1} := by
  simp only [stepChange]
  repeat' split
  all_goals
    first
      | exact Or.inl rfl
      | exact Or.inr (Or.inl ⟨_, rfl⟩)
      | exact Or.inr (Or.inr (Or.inl ⟨_, rfl⟩))
      | exact Or.inr (Or.inr (Or.inr (Or.inl rfl)))
      | exact Or.inr (Or.inr (Or.inr (Or.inr rfl)))

/-! ## Concrete fixtures for witnesses and counterexamples -/

/-- A catalog with no usable match for anything (every lookup fails). -/
def noneCat : Catalog := ⟨fun _ => none, fun _ => none⟩

/-- A single `aws_lb` creation. -/
def lbRC : RC := ⟨some "aws_lb", some ⟨some ["create"], none⟩⟩

/-- An `aws_instance` change with the given instance type and actions. -/
def ec2RC (t : String) (acts : List String) : RC :=
  ⟨some "aws_instance", some ⟨some acts, some [("instance_type", t)]⟩⟩

/-- An `aws_db_instance` change with the given instance class and actions. -/
def dbRC (t : String) (acts : List String) : RC :=
  ⟨some "aws_db_instance", some ⟨some acts, some [("instance_class", t)]⟩⟩

/-- A catalog state resolving `Decimal('-1')` for everything.  The USD field
of a price record is an arbitrary JSON string and `Decimal(price_per_hour)`
accepts negative strings, so this is a reachable catalog observation; the
script filters such prices only through `if price:` (truthiness) and the
`> 0` group guards. -/
def negCat : Catalog := ⟨fun _ => some ⟨-1, 0⟩, fun _ => some ⟨-1, 0⟩⟩

/-- A catalog resolving `$1/hour` for `m5.large` and `-$0.5/hour` for every
other instance type. -/
def mixCat : Catalog :=
  ⟨fun t => if t = "m5.large" then some ⟨1, 0⟩ else some ⟨-5, -1⟩, fun _ => none⟩

/-- A catalog knowing only `t3.micro` (at `$0.0104/hour`). -/
def catA : Catalog :=
  ⟨fun t => if t = "t3.micro" then some ⟨104, -4⟩ else none, fun _ => none⟩

/-- A catalog agreeing with `catA` on `t3.micro` but differing everywhere
else. -/
def catB : Catalog :=
  ⟨fun t => if t = "t3.micro" then some ⟨104, -4⟩ else some ⟨999, -2⟩, fun _ => some ⟨1, 0⟩⟩

/-! ## Monotonicity infrastructure -/

/-- All prices a catalog resolves are non-negative. -/
def Catalog.NonNeg (cat : Catalog) : Prop :=
  (∀ t p, cat.ec2 t = some p → 0 ≤ p.man) ∧ (∀ t p, cat.rds t = some p → 0 ≤ p.man)

theorem itemRat_nonneg (price? : String → Option Dec)
    (h : ∀ t p, price? t = some p → 0 ≤ p.man) (t : String) : 0 ≤ itemRat price? t := by
  unfold itemRat
  cases hp : price? t with
  | none => exact le_refl 0
  | some p =>
    show 0 ≤ if p.man ≠ 0 then p.toRat else 0
    rcases eq_or_ne p.man 0 with hm | hm
    · simp [hm]
    · rw [if_pos hm]
      exact (Dec.toRat_nonneg p).mpr (h t p hp)

theorem hourlySum_append (price? : String → Option Dec) (l : List String) (t : String) :
    hourlySum price? (l ++ [t]) = hourlySum price? l + itemRat price? t := by
  simp [hourlySum]

theorem groupMonthly_mono {q q' : ℚ} (h : q ≤ q') : groupMonthly q ≤ groupMonthly q' := by
  unfold groupMonthly
  split_ifs <;> nlinarith

theorem flatMonthly_mono (p : ℚ) (hp : 0 ≤ p) {n n' : Nat} (h : n ≤ n') :
    flatMonthly p n ≤ flatMonthly p n' := by
  rcases Nat.eq_zero_or_pos n with rfl | hn
  · rw [flatMonthly, if_neg (by omega)]
    rw [flatMonthly]
    split_ifs with h'
    · have hcast : (0:ℚ) ≤ (n' : ℚ) := by positivity
      nlinarith
    · exact le_refl 0
  · have hn' : 0 < n' := lt_of_lt_of_le hn h
    rw [flatMonthly, flatMonthly, if_pos hn, if_pos hn']
    have hcast : (n:ℚ) ≤ (n':ℚ) := Nat.cast_le.mpr h
    nlinarith

theorem get_alb_price_toRat_nonneg : 0 ≤ get_alb_price.toRat := by
  rw [Dec.toRat_eq_zpow]
  norm_num [get_alb_price]

theorem get_nat_gateway_price_toRat_nonneg : 0 ≤ get_nat_gateway_price.toRat := by
  rw [Dec.toRat_eq_zpow]
  norm_num [get_nat_gateway_price]

/-! ## The claims -/

/-- Claim C1, counterexample: for a plan containing exactly one `aws_lb`
change and nothing else priceable, the ALB breakdown line the code emits
displays `$16.42`, not `$16.43`: `Decimal` two-decimal formatting rounds
`16.4250` half-to-even down to `16.42`. -/
theorem alb_line_shows_16_42 :
    (estimate_cost noneCat [lbRC]).breakdown = ["ALB (1x): $16.42/month (excluding LCU)"]
    ∧ "ALB (1x): $16.43/month (excluding LCU)" ∉ (estimate_cost noneCat [lbRC]).breakdown := by
  decide

/-- Claim C1, amended: for a plan containing exactly one `aws_lb` change
(and nothing else), the breakdown is exactly one ALB line; its exact monthly
value is `0.0225 × 730 = 16.425`, displayed as `$16.42` because the
two-decimal `Decimal` formatting rounds half-to-even. -/
theorem alb_single_change_breakdown (cat : Catalog) (acts : Option (List String))
    (after : Option (List (String × String))) (h : acts.getD [] ≠ ["delete"]) :
    estimate_cost cat [⟨some "aws_lb", some ⟨acts, after⟩⟩] =
      ⟨⟨164250, -4⟩, ["ALB (1x): $16.42/month (excluding LCU)"], ⟨[], [], 1, 0⟩⟩
    ∧ (⟨164250, -4⟩ : Dec).toRat = 16425 / 1000 := by
  constructor
  · have hres : parse_terraform_plan [⟨some "aws_lb", some ⟨acts, after⟩⟩] = ⟨[], [], 1, 0⟩ := by
      simp [parse_terraform_plan, stepChange, RC.changeActions, Resources.init, h]
    rw [estimate_cost_def, hres]
    rfl
  · rw [Dec.toRat_eq_zpow]
    norm_num

/-- Witness for the amended C1 theorem at a concrete plan. -/
theorem alb_single_change_breakdown_witness :
    estimate_cost noneCat [lbRC] =
      ⟨⟨164250, -4⟩, ["ALB (1x): $16.42/month (excluding LCU)"], ⟨[], [], 1, 0⟩⟩ :=
  (alb_single_change_breakdown noneCat (some ["create"]) none (by decide)).1

/-- Claim C2: for every plan in which each entry's actions list is exactly
`['delete']`, the estimate has monthly cost `0` and an empty breakdown. -/
theorem delete_only_plan_is_free (cat : Catalog) (plan : List RC)
    (h : ∀ c ∈ plan, c.changeActions = ["delete"]) :
    (estimate_cost cat plan).monthly_cost.toRat = 0
    ∧ (estimate_cost cat plan).breakdown = [] := by
  have hres : parse_terraform_plan plan = Resources.init :=
    foldl_stepChange_all_delete plan Resources.init h
  rw [estimate_cost_def, hres]
  exact ⟨Dec.toRat_zero, rfl⟩

/-- Witness for C2 at a concrete all-delete plan. -/
theorem delete_only_plan_is_free_witness :
    (estimate_cost noneCat [ec2RC "t3.micro" ["delete"], dbRC "db.t3.micro" ["delete"]]).monthly_cost.toRat = 0
    ∧ (estimate_cost noneCat [ec2RC "t3.micro" ["delete"], dbRC "db.t3.micro" ["delete"]]).breakdown = [] :=
  delete_only_plan_is_free noneCat [ec2RC "t3.micro" ["delete"], dbRC "db.t3.micro" ["delete"]]
    (by decide)

/-- Claim C4: a compute-instance change whose catalog lookup fails (the
resolver yields `None`) contributes nothing to the monthly cost and gets no
per-item breakdown line, yet `resources.ec2_instances` still contains its
identifier, and the run completes (the model is a total function: every
lookup failure path of `get_ec2_price` returns `None` rather than raising). -/
theorem ec2_lookup_failure_kept_in_inventory (cat : Catalog) (t : String) (acts : List String)
    (hnone : cat.ec2 t = none) (ht : t ≠ "") (ha : acts ≠ ["delete"]) :
    (estimate_cost cat [ec2RC t acts]).monthly_cost.toRat = 0
    ∧ (estimate_cost cat [ec2RC t acts]).breakdown = []
    ∧ (estimate_cost cat [ec2RC t acts]).resources.ec2_instances = [t] := by
  have hres : parse_terraform_plan [ec2RC t acts] = ⟨[t], [], 0, 0⟩ := by
    simp [parse_terraform_plan, stepChange, RC.changeActions, RC.changeAfter, Resources.init,
      ec2RC, ha, ht, List.lookup]
  have hfold : ec2Fold cat [t] = (Dec.zero, []) := by
    simp [ec2Fold, itemStep, hnone]
  rw [estimate_cost_def, hres]
  dsimp only
  rw [hfold]
  exact ⟨Dec.toRat_zero, rfl, rfl⟩

/-- Witness for C4 at a concrete instance type and empty catalog. -/
theorem ec2_lookup_failure_kept_in_inventory_witness :
    (estimate_cost noneCat [ec2RC "t3.micro" ["create"]]).monthly_cost.toRat = 0
    ∧ (estimate_cost noneCat [ec2RC "t3.micro" ["create"]]).breakdown = []
    ∧ (estimate_cost noneCat [ec2RC "t3.micro" ["create"]]).resources.ec2_instances = ["t3.micro"] :=
  ec2_lookup_failure_kept_in_inventory noneCat "t3.micro" ["create"] rfl (by decide) (by decide)

/-- Claim C3, counterexample: a catalog state can resolve a negative price
(the USD string is unconstrained), and then appending a priceable
compute-instance change strictly decreases the monthly cost: `$1/hour` alone
gives `$730/month`, while appending an instance resolved at `-$0.5/hour`
drops the total to `$365/month`. -/
theorem append_can_decrease_monthly_cost :
    (estimate_cost mixCat ([ec2RC "m5.large" ["create"]] ++ [ec2RC "weird" ["create"]])).monthly_cost.toRat
      < (estimate_cost mixCat [ec2RC "m5.large" ["create"]]).monthly_cost.toRat := by
  have h1 : (estimate_cost mixCat ([ec2RC "m5.large" ["create"]] ++ [ec2RC "weird" ["create"]])).monthly_cost
      = ⟨3650, -1⟩ := by decide
  have h2 : (estimate_cost mixCat [ec2RC "m5.large" ["create"]]).monthly_cost = ⟨730, 0⟩ := by
    decide
  rw [h1, h2, Dec.toRat_eq_zpow, Dec.toRat_eq_zpow]
  norm_num

/-- Claim C3, amended: provided every price the catalog resolves is
non-negative, appending one additional resource change (in particular a
priceable one of any supported kind) never decreases the monthly cost. -/
theorem monthly_cost_monotone_append (cat : Catalog) (plan : List RC) (c : RC)
    (h : cat.NonNeg) :
    (estimate_cost cat plan).monthly_cost.toRat
      ≤ (estimate_cost cat (plan ++ [c])).monthly_cost.toRat := by
  rw [estimate_monthly, estimate_monthly, parse_append]
  rcases stepChange_shape (parse_terraform_plan plan) c with h0 | ⟨t, h0⟩ | ⟨t, h0⟩ | h0 | h0
  · rw [h0]
  · rw [h0]
    dsimp only
    have hmono : groupMonthly (hourlySum cat.ec2 (parse_terraform_plan plan).ec2_instances)
        ≤ groupMonthly (hourlySum cat.ec2 ((parse_terraform_plan plan).ec2_instances ++ [t])) := by
      apply groupMonthly_mono
      rw [hourlySum_append]
      have := itemRat_nonneg cat.ec2 h.1 t
      linarith
    linarith
  · rw [h0]
    dsimp only
    have hmono : groupMonthly (hourlySum cat.rds (parse_terraform_plan plan).rds_instances)
        ≤ groupMonthly (hourlySum cat.rds ((parse_terraform_plan plan).rds_instances ++ [t])) := by
      apply groupMonthly_mono
      rw [hourlySum_append]
      have := itemRat_nonneg cat.rds h.2 t
      linarith
    linarith
  · rw [h0]
    dsimp only
    have hmono := flatMonthly_mono get_alb_price.toRat get_alb_price_toRat_nonneg
      (Nat.le_succ (parse_terraform_plan plan).albs)
    linarith
  · rw [h0]
    dsimp only
    have hmono := flatMonthly_mono get_nat_gateway_price.toRat get_nat_gateway_price_toRat_nonneg
      (Nat.le_succ (parse_terraform_plan plan).nat_gateways)
    linarith

/-- The catalog `catA` resolves only non-negative prices. -/
theorem catA_nonneg : Catalog.NonNeg catA := by
  constructor
  · intro t p hp
    by_cases ht : t = "t3.micro"
    · simp [catA, ht] at hp
      rw [← hp]
      norm_num
    · simp [catA, ht] at hp
  · intro t p hp
    simp [catA] at hp

/-- Witness for the amended C3 theorem at a concrete plan and catalog. -/
theorem monthly_cost_monotone_append_witness :
    (estimate_cost catA []).monthly_cost.toRat
      ≤ (estimate_cost catA ([] ++ [ec2RC "t3.micro" ["create"]])).monthly_cost.toRat :=
  monthly_cost_monotone_append catA [] (ec2RC "t3.micro" ["create"]) catA_nonneg

/-- Claim C5, counterexample: with a catalog resolving `Decimal('-1')` for a
database instance class, both prices of two identical `aws_db_instance`
changes resolve, yet the database contribution to the monthly cost is `0`,
not `(p1 + p2) × 730 = -1460`: the `rds_hourly > 0` guard silently drops a
non-positive group sum. -/
theorem rds_pair_negative_price_not_summed :
    negCat.rds "db.t3.micro" = some ⟨-1, 0⟩
    ∧ (estimate_cost negCat [dbRC "db.t3.micro" ["create"], dbRC "db.t3.micro" ["create"]]).monthly_cost
        = Dec.zero
    ∧ (estimate_cost negCat [dbRC "db.t3.micro" ["create"], dbRC "db.t3.micro" ["create"]]).monthly_cost.toRat
        ≠ ((⟨-1, 0⟩ : Dec).toRat + (⟨-1, 0⟩ : Dec).toRat) * 730 := by
  refine ⟨rfl, by decide, ?_⟩
  rw [show (estimate_cost negCat [dbRC "db.t3.micro" ["create"], dbRC "db.t3.micro" ["create"]]).monthly_cost
      = Dec.zero from by decide]
  rw [Dec.toRat_zero, Dec.toRat_eq_zpow]
  norm_num

/-- Claim C5, amended: for a plan with two `aws_db_instance` changes of the
same instance class whose (shared) resolved price is non-negative, the
monthly cost equals `(p1 + p2) × 730` exactly: the hourly prices are summed
first and the `× 730` conversion is applied once to the sum.  (With a
negative resolved price the `> 0` guard drops the group instead.) -/
theorem rds_pair_summed_before_conversion (cat : Catalog) (c : String) (p : Dec)
    (hc : c ≠ "") (hp : cat.rds c = some p) (hnn : 0 ≤ p.man) :
    (estimate_cost cat [dbRC c ["create"], dbRC c ["create"]]).monthly_cost.toRat
      = (p.toRat + p.toRat) * 730 := by
  have hres : parse_terraform_plan [dbRC c ["create"], dbRC c ["create"]] = ⟨[], [c, c], 0, 0⟩ := by
    simp [parse_terraform_plan, stepChange, RC.changeActions, RC.changeAfter, Resources.init,
      dbRC, hc, List.lookup]
  rw [estimate_monthly, hres]
  dsimp only
  have hsum : hourlySum cat.rds [c, c] = itemRat cat.rds c + itemRat cat.rds c := by
    simp [hourlySum]
  rcases eq_or_ne p.man 0 with hm | hm
  · have hir : itemRat cat.rds c = 0 := by simp [itemRat, hp, hm]
    have hpr : p.toRat = 0 := Dec.toRat_eq_zero_of_man_eq_zero hm
    rw [hsum, hir, hpr]
    norm_num [groupMonthly, flatMonthly, hourlySum]
  · have h0 : 0 < p.man := lt_of_le_of_ne hnn (Ne.symm hm)
    have hir : itemRat cat.rds c = p.toRat := by simp [itemRat, hp, hm]
    have hpos : 0 < p.toRat := (Dec.toRat_pos p).mpr h0
    rw [hsum, hir]
    rw [show hourlySum cat.ec2 [] = 0 from rfl]
    rw [show groupMonthly 0 = 0 from by norm_num [groupMonthly]]
    rw [show flatMonthly get_alb_price.toRat 0 = 0 from rfl,
        show flatMonthly get_nat_gateway_price.toRat 0 = 0 from rfl]
    rw [groupMonthly, if_pos (by linarith : (0:ℚ) < p.toRat + p.toRat)]
    ring

/-- Witness for the amended C5 theorem at a concrete class and catalog. -/
theorem rds_pair_summed_before_conversion_witness :
    (estimate_cost catB [dbRC "db.t3.micro" ["create"], dbRC "db.t3.micro" ["create"]]).monthly_cost.toRat
      = ((⟨1, 0⟩ : Dec).toRat + (⟨1, 0⟩ : Dec).toRat) * 730 :=
  rds_pair_summed_before_conversion catB "db.t3.micro" ⟨1, 0⟩ (by decide) rfl (by norm_num)

/-- Claim C6: the loop body skips an entry exactly when its actions list is
exactly `['delete']`; every other entry (replacements `['delete','create']`,
an empty list, a missing actions field - which reads as `[]`) goes on to the
type-tag classification. -/
theorem skip_iff_actions_delete_only (res : Resources) (c : RC) :
    stepChange res c =
      if c.changeActions = ["delete"] then res else classifyChange res c := by
  by_cases h : c.changeActions = ["delete"] <;> simp [stepChange, classifyChange, h]

/-- The six type tags the parser recognizes. -/
def recognizedType (c : RC) : Prop :=
  c.type = some "aws_instance" ∨ c.type = some "aws_launch_template"
    ∨ c.type = some "aws_db_instance" ∨ c.type = some "aws_lb"
    ∨ c.type = some "aws_alb" ∨ c.type = some "aws_nat_gateway"

instance (c : RC) : Decidable (recognizedType c) := by
  unfold recognizedType
  infer_instance

theorem stepChange_unrecognized (res : Resources) (c : RC) (h : ¬ recognizedType c) :
    stepChange res c = res := by
  unfold recognizedType at h
  push_neg at h
  obtain ⟨h1, h2, h3, h4, h5, h6⟩ := h
  by_cases hd : c.changeActions = ["delete"] <;>
    simp [stepChange, hd, h1, h2, h3, h4, h5, h6]

/-- Claim C7: a change entry whose type tag is not one of the six recognized
tags (also a missing tag) leaves the whole estimate unchanged: no cost
contribution, no breakdown line, no inventory count. -/
theorem unknown_type_has_no_effect (cat : Catalog) (p1 p2 : List RC) (c : RC)
    (h : ¬ recognizedType c) :
    estimate_cost cat (p1 ++ c :: p2) = estimate_cost cat (p1 ++ p2) := by
  have hp : parse_terraform_plan (p1 ++ c :: p2) = parse_terraform_plan (p1 ++ p2) := by
    unfold parse_terraform_plan
    rw [List.foldl_append, List.foldl_append, List.foldl_cons, stepChange_unrecognized _ _ h]
  rw [estimate_cost_def, estimate_cost_def, hp]

/-- Witness for C7 at a concrete unrecognized type tag. -/
theorem unknown_type_has_no_effect_witness :
    estimate_cost noneCat ([ec2RC "t3.micro" ["create"]]
        ++ ⟨some "aws_s3_bucket", some ⟨some ["create"], none⟩⟩ :: [])
      = estimate_cost noneCat ([ec2RC "t3.micro" ["create"]] ++ []) :=
  unknown_type_has_no_effect noneCat [ec2RC "t3.micro" ["create"]] []
    ⟨some "aws_s3_bucket", some ⟨some ["create"], none⟩⟩ (by decide)

theorem foldl_itemStep_congr (f g : String → Option Dec) (mkLine : String → Dec → String) :
    ∀ l : List String, (∀ t ∈ l, f t = g t) → ∀ acc : Dec × List String,
      l.foldl (itemStep f mkLine) acc = l.foldl (itemStep g mkLine) acc := by
  intro l
  induction l with
  | nil => intro _ _; rfl
  | cons t l ih =>
    intro h acc
    rw [List.foldl_cons, List.foldl_cons]
    rw [show itemStep f mkLine acc t = itemStep g mkLine acc t from by
      unfold itemStep; rw [h t (List.mem_cons_self t l)]]
    exact ih (fun x hx => h x (List.mem_cons_of_mem t hx)) _

/-- Claim C8: the computation is deterministic in the resolved price data:
two runs whose catalogs resolve the same prices for every identifier in the
plan's inventory produce an identical result - same monthly cost, same
breakdown lines in the same order, same resource counts.  (The model is a
pure function of the plan and the catalog, mirroring the absence of
randomness or wall-clock dependence in the script's arithmetic.) -/
theorem estimate_deterministic_in_resolved_prices (cat1 cat2 : Catalog) (plan : List RC)
    (hec2 : ∀ t ∈ (parse_terraform_plan plan).ec2_instances, cat1.ec2 t = cat2.ec2 t)
    (hrds : ∀ t ∈ (parse_terraform_plan plan).rds_instances, cat1.rds t = cat2.rds t) :
    estimate_cost cat1 plan = estimate_cost cat2 plan := by
  rw [estimate_cost_def, estimate_cost_def]
  unfold ec2Fold rdsFold
  rw [foldl_itemStep_congr cat1.ec2 cat2.ec2 ec2Line _ hec2,
      foldl_itemStep_congr cat1.rds cat2.rds rdsLine _ hrds]

/-- Witness for C8: two catalogs that agree on the one identifier the plan
mentions (but differ on every other identifier) give identical results. -/
theorem estimate_deterministic_in_resolved_prices_witness :
    estimate_cost catA [ec2RC "t3.micro" ["create"]]
      = estimate_cost catB [ec2RC "t3.micro" ["create"]] :=
  estimate_deterministic_in_resolved_prices catA catB [ec2RC "t3.micro" ["create"]]
    (by decide) (by decide)

/-- Claim C9: an `aws_alb`-typed entry is treated identically to an
`aws_lb`-typed one, and each such non-skipped entry increments the
load-balancer count by exactly one regardless of its attributes. -/
theorem alb_alias_of_lb (res : Resources) (acts : Option (List String))
    (after : Option (List (String × String))) :
    stepChange res ⟨some "aws_alb", some ⟨acts, after⟩⟩
        = stepChange res ⟨some "aws_lb", some ⟨acts, after⟩⟩
    ∧ (acts.getD [] ≠ ["delete"] →
        (stepChange res ⟨some "aws_alb", some ⟨acts, after⟩⟩).albs = res.albs + 1) := by
  constructor
  · by_cases h : acts.getD [] = ["delete"] <;>
      simp [stepChange, RC.changeActions, h]
  · intro h
    simp [stepChange, RC.changeActions, h]

/-- Witness for C9 at a concrete state and entry. -/
theorem alb_alias_of_lb_witness :
    stepChange Resources.init ⟨some "aws_alb", some ⟨some ["create"], none⟩⟩
        = stepChange Resources.init ⟨some "aws_lb", some ⟨some ["create"], none⟩⟩
    ∧ (stepChange Resources.init ⟨some "aws_alb", some ⟨some ["create"], none⟩⟩).albs
        = Resources.init.albs + 1 :=
  ⟨(alb_alias_of_lb Resources.init (some ["create"]) none).1,
   (alb_alias_of_lb Resources.init (some ["create"]) none).2 (by decide)⟩

/-- A catalog resolving a present price of exactly zero for everything
(`Decimal('0')` for compute, `Decimal('0.00')` for database). -/
def zeroCat : Catalog := ⟨fun _ => some ⟨0, 0⟩, fun _ => some ⟨0, -2⟩⟩

/-- Claim C10: a compute or database item whose catalog lookup resolves to a
present price of exactly zero is treated the same as one with an absent
price: `if price:` is falsy for `Decimal(0)`, so the item is excluded from
the hourly sum and gets no per-item line, while still being counted in the
resource inventory. -/
theorem zero_price_treated_as_absent (cat : Catalog) (p q : Dec) (t c : String)
    (acts : List String) (hp : p.man = 0) (hq : q.man = 0)
    (hpt : cat.ec2 t = some p) (hqc : cat.rds c = some q)
    (ht : t ≠ "") (hc : c ≠ "") (ha : acts ≠ ["delete"]) :
    (estimate_cost cat [ec2RC t acts, dbRC c acts]).monthly_cost.toRat = 0
    ∧ (estimate_cost cat [ec2RC t acts, dbRC c acts]).breakdown = []
    ∧ (estimate_cost cat [ec2RC t acts, dbRC c acts]).resources.ec2_instances = [t]
    ∧ (estimate_cost cat [ec2RC t acts, dbRC c acts]).resources.rds_instances = [c] := by
  have hres : parse_terraform_plan [ec2RC t acts, dbRC c acts] = ⟨[t], [c], 0, 0⟩ := by
    simp [parse_terraform_plan, stepChange, RC.changeActions, RC.changeAfter, Resources.init,
      ec2RC, dbRC, ha, ht, hc, List.lookup]
  have hfe : ec2Fold cat [t] = (Dec.zero, []) := by
    simp [ec2Fold, itemStep, hpt, hp]
  have hfr : rdsFold cat [c] = (Dec.zero, []) := by
    simp [rdsFold, itemStep, hqc, hq]
  rw [estimate_cost_def, hres]
  dsimp only
  rw [hfe, hfr]
  exact ⟨Dec.toRat_zero, rfl, rfl, rfl⟩

/-- Witness for C10 at concrete identifiers and a zero-price catalog. -/
theorem zero_price_treated_as_absent_witness :
    (estimate_cost zeroCat [ec2RC "t3.micro" ["create"], dbRC "db.t3.micro" ["create"]]).monthly_cost.toRat = 0
    ∧ (estimate_cost zeroCat [ec2RC "t3.micro" ["create"], dbRC "db.t3.micro" ["create"]]).breakdown = []
    ∧ (estimate_cost zeroCat [ec2RC "t3.micro" ["create"], dbRC "db.t3.micro" ["create"]]).resources.ec2_instances = ["t3.micro"]
    ∧ (estimate_cost zeroCat [ec2RC "t3.micro" ["create"], dbRC "db.t3.micro" ["create"]]).resources.rds_instances = ["db.t3.micro"] :=
  zero_price_treated_as_absent zeroCat ⟨0, 0⟩ ⟨0, -2⟩ "t3.micro" "db.t3.micro" ["create"]
    rfl rfl rfl rfl (by decide) (by decide) (by decide)

end AwsCost
